import Mathlib

/-!
Verification of the FonoaudiologIA frontend against its natural-language
specification.  Each definition below is a shallow embedding of a function of
the TypeScript source (file and lines are cited on every definition); the
theorems settle the specification claims C1 .. C10 over these definitions.

Numeric convention: JavaScript numbers are modelled as rationals, and
`Math.round` as `jsRound` below.
-/

/-- Model of JavaScript `Math.round`: round half toward positive infinity. -/
def jsRound (x : ℚ) : ℤ := Int.floor (x + 1/2)

/-- Model of JavaScript `toLowerCase` on one character (ASCII range; the
texts handled by the claims stay in this range). -/
def lowerChar (c : Char) : Char :=
  if 'A' ≤ c ∧ c ≤ 'Z' then Char.ofNat (c.toNat + 32) else c

/-- Model of JavaScript `String.prototype.toLowerCase`. -/
def lowerStr (s : String) : String := ⟨s.toList.map lowerChar⟩

/-! ## Tokenizer and words-per-minute (src/frontend/src/hooks/useSpeechRate.ts)

The transcript handling of `transcribeAudio` (lines 176-190):

  const transcript = data.text || '';
  if (transcript.trim()) {
    const words = transcript.trim().split(/\s+/).filter((w) => w.length > 0);
    const chunkWords = words.length;
    totalWordsRef.current += chunkWords;
    if (chunkDurationMinutes > 0 && chunkWords > 0) {
      const chunkWPM = chunkWords / chunkDurationMinutes;
      setWordsPerMinute(Math.round(chunkWPM));
      setWordCount(totalWordsRef.current);
    }
  }
-/

/-- A whitespace character, as in JavaScript `trim` / `\s`. -/
def isWs (c : Char) : Bool := c.isWhitespace

/-- Model of JavaScript `String.prototype.trim`: drop whitespace from both
ends of the character list. -/
def trimChars (cs : List Char) : List Char :=
  ((cs.dropWhile isWs).reverse.dropWhile isWs).reverse

/-- Helper for splitting on whitespace characters: accumulates the current
token (reversed) and emits it at every whitespace character and at the end. -/
def splitWsAux : List Char → List Char → List (List Char)
  | [], acc => [acc.reverse]
  | c :: cs, acc => if isWs c then acc.reverse :: splitWsAux cs [] else splitWsAux cs (c :: acc)

/-- Model of `s.split(/\s+/).filter((w) => w.length > 0)`: splitting on each
whitespace character and then discarding empty pieces yields exactly the
maximal non-whitespace runs, which is what splitting on `\s+` plus the
non-empty filter produces. -/
def wsTokens (cs : List Char) : List (List Char) :=
  (splitWsAux cs []).filter (fun w => 0 < w.length)

/-- Model of `transcript.trim().split(/\s+/).filter((w) => w.length > 0)`. -/
def jsTokens (s : String) : List (List Char) :=
  wsTokens (trimChars s.toList)

/-- Number of whitespace-separated word tokens of a transcript. -/
def tokenCount (s : String) : ℕ := (jsTokens s).length

/-- Model of the transcript-processing tail of `transcribeAudio`
(useSpeechRate.ts lines 176-190).  Returns `some (wpm, chunkWords)` exactly
when the code calls `setWordsPerMinute` / `setWordCount`, and `none` when no
value is produced (empty/whitespace transcript, or non-positive chunk
duration).  `chunkDurationMinutes` is the chunk duration in minutes, as in
the source.  The second component is the chunk-local token count
`chunkWords` — the amount the code adds to the running `totalWordsRef`
accumulator; the word count the code reports via `setWordCount` is that
cumulative total across chunks, which this chunk-local model does not
track. -/
def wpmUpdate (transcript : String) (chunkDurationMinutes : ℚ) : Option (ℤ × ℕ) :=
  let t := trimChars transcript.toList
  if t.length = 0 then none
  else
    let words := wsTokens t
    let chunkWords := words.length
    if chunkDurationMinutes > 0 ∧ 0 < chunkWords then
      some (jsRound ((chunkWords : ℚ) / chunkDurationMinutes), chunkWords)
    else none

/-! ## Score page result processing (src/frontend/src/pages/Score.tsx)

Data shapes from src/frontend/src/types/requests.ts (lines 10-20) and the
extension declared in Score.tsx (lines 17-24). -/

/-- Structure `DimensionResponse` of src/frontend/src/types/requests.ts lines 10-14:
one dimension entry of the results payload. -/
structure DimensionResponse where
  name : String
  score : ℚ
  feedback : String
deriving DecidableEq

/-- Structure `MetricScore` of Score.tsx lines 17-20: both fields are optional in the
TypeScript type. -/
structure MetricScore where
  raw : Option ℚ
  score : Option ℚ
deriving DecidableEq

/-- Structure `ResultsResponse` (requests.ts lines 16-20) extended with the optional
top-level `metrics` record of `ResultsWithMetrics` (Score.tsx lines 22-24).
The `metrics` record is modelled as an association list keyed by metric
name. -/
structure ResultsWithMetrics where
  session_id : String
  overallScore : ℚ
  dimensions : List DimensionResponse
  metrics : Option (List (String × MetricScore))
deriving DecidableEq

/-- A normalized dimension as built by `updateMetrics` (Score.tsx lines
58-62): lower-cased name and rounded score. -/
structure NormDim where
  name : String
  value : ℤ
  feedback : String
deriving DecidableEq

/-- Model of `dims.map(d => ({ name: lower(d.name), value: Math.round(d.score),
feedback: d.feedback }))` (Score.tsx lines 58-62). -/
def normalizeDims (dims : List DimensionResponse) : List NormDim :=
  dims.map (fun d => ⟨lowerStr d.name, jsRound d.score, d.feedback⟩)

/-- Substring test, modelling JavaScript `String.prototype.includes`. -/
def containsSub : List Char → List Char → Bool
  | _, [] => true
  | [], _ :: _ => false
  | c :: cs, p => p.isPrefixOf (c :: cs) || containsSub cs p

/-- Model of `s.includes(sub)` on strings. -/
def strIncludes (s sub : String) : Bool := containsSub s.toList sub.toList

/-- Model of `aliases.some(a => name.includes(a))` (Score.tsx line 65). -/
def nameMatches (name : String) (aliases : List String) : Bool :=
  aliases.any (fun a => strIncludes name a)

/-- Model of `findValue` (Score.tsx lines 64-67): the rounded score of the
first normalized dimension whose name contains one of the aliases, `0` when
no dimension matches. -/
def findValue (normalized : List NormDim) (aliases : List String) : ℤ :=
  match normalized.find? (fun d => nameMatches d.name aliases) with
  | some d => d.value
  | none => 0

def vocabularyAliases : List String := ["vocabulary", "vocabulario"]

def clarityAliases : List String := ["clarity", "claridad"]

def rhythmAliases : List String := ["rhythm", "ritmo"]

def overallAliases : List String := ["overall", "general"]

/-- Model of the overall-score computation of `updateMetrics` (Score.tsx
lines 69-76): take the `overall`/`general` dimension if one matches with a
non-zero rounded score, otherwise the rounded mean of the strictly positive
values among vocabulary, clarity, rhythm (`0` when none is positive). -/
def updateMetricsOverall (results : ResultsWithMetrics) : ℤ :=
  let normalized := normalizeDims results.dimensions
  let vocabulary := findValue normalized vocabularyAliases
  let clarity := findValue normalized clarityAliases
  let rhythm := findValue normalized rhythmAliases
  let overall := findValue normalized overallAliases
  if overall ≠ 0 then overall
  else
    let present := [vocabulary, clarity, rhythm].filter (fun v => 0 < v)
    if present.length ≠ 0 then jsRound ((present.sum : ℚ) / (present.length : ℚ))
    else 0

/-- The four metric keys the Score page extracts (Score.tsx lines 96-101). -/
def metricKeys : List String :=
  ["precision_transcription", "words_per_minute", "filler_word_per_minute",
   "lexical_variability"]

/-- Lookup in the modelled `metrics` record: `metricsMap[key]`. -/
def lookupMetric (m : List (String × MetricScore)) (k : String) : Option MetricScore :=
  (m.find? (fun kv => kv.1 = k)).map (fun kv => kv.2)

/-- Model of the metric-detail extraction of `updateMetrics` (Score.tsx lines
94-116): for every known key present in the top-level `metrics` record, the
rounded `score` component (`0` when the `score` field is missing); keys not
present are dropped (`if (!metric) return null` followed by the null
filter). -/
def metricDetails (results : ResultsWithMetrics) : List (String × ℤ) :=
  let metricsMap := results.metrics.getD []
  metricKeys.filterMap (fun key =>
    (lookupMetric metricsMap key).map (fun metric =>
      (key, match metric.score with
            | some q => jsRound q
            | none => 0)))

/-! Specification-side definitions for C1 (from the claim's words), built
directly from the dimension list rather than through `normalizeDims` and
`findValue`. -/

/-- Whether a dimension entry is one of the three named dimensions
(vocabulary, clarity, rhythm), using the page's alias matching on the
lower-cased name. -/
def isNamedDimension (d : DimensionResponse) : Bool :=
  nameMatches (lowerStr d.name) vocabularyAliases ||
  nameMatches (lowerStr d.name) clarityAliases ||
  nameMatches (lowerStr d.name) rhythmAliases

/-- Claim side of C1, as the claim states it: the unweighted mean of the
scores of the dimension entries that are present (vocabulary, clarity,
rhythm), `none` when no such dimension is present. -/
def claimMeanPresent (results : ResultsWithMetrics) : Option ℚ :=
  let present := results.dimensions.filter isNamedDimension
  if present.length = 0 then none
  else some (((present.map DimensionResponse.score).sum) / (present.length : ℚ))

/-- Rounded score of the first dimension entry matching the aliases, taken
directly from the payload's dimension list. -/
def firstDimValue (dims : List DimensionResponse) (aliases : List String) : Option ℤ :=
  (dims.find? (fun d => nameMatches (lowerStr d.name) aliases)).map
    (fun d => jsRound d.score)

/-- Amended claim side of C1: the rounded unweighted mean of the strictly
positive rounded scores among the vocabulary, clarity and rhythm dimensions
that are present; a dimension that is absent, or whose rounded score is not
strictly positive, contributes to neither the numerator nor the denominator;
`0` when nothing remains. -/
def amendedOverall (results : ResultsWithMetrics) : ℤ :=
  let scores := [firstDimValue results.dimensions vocabularyAliases,
                 firstDimValue results.dimensions clarityAliases,
                 firstDimValue results.dimensions rhythmAliases]
  let pos := (scores.filterMap id).filter (fun v => 0 < v)
  if pos = [] then 0 else jsRound ((pos.sum : ℚ) / (pos.length : ℚ))

/-! ## Example resource loader (src/frontend/src/services/exampleService.ts)

`ExampleService.loadExamples` (lines 11-42) caches in `this.examples`, shares
an in-flight `this.loadPromise`, and converts a failed fetch into a cached
empty `ExamplesData` in its `catch` handler (lines 31-39). -/

/-- Structure `ExamplesData` of exampleService.ts lines 1-5. -/
structure ExamplesData where
  read : List String
  description : List String
  question : List String
deriving DecidableEq

/-- The substitute value installed by the `catch` handler of `loadExamples`
(lines 33-37): all three lists empty. -/
def emptyExamples : ExamplesData := ⟨[], [], []⟩

/-- Settled state of the promise built by `loadExamples` (lines 20-39), as a
function of the underlying fetch outcome: a successful fetch resolves with
the parsed data; a failed fetch is caught (lines 31-39) and the promise still
resolves, with the empty substitute.  The promise never rejects. -/
def loadExamplesSettled (fetchOutcome : Except String ExamplesData) :
    Except String ExamplesData :=
  match fetchOutcome with
  | Except.ok data => Except.ok data
  | Except.error _ => Except.ok emptyExamples

/-- The value the load ends up caching in `this.examples`, as a function of
the fetch outcome (lines 27-29 on success, lines 33-38 on failure). -/
def outcomeValue (fetchOutcome : Except String ExamplesData) : ExamplesData :=
  match fetchOutcome with
  | Except.ok data => data
  | Except.error _ => emptyExamples

/-- Events of the loader's interleaving model: a caller invokes
`loadExamples`, or the in-flight fetch promise settles. -/
inductive LoadEvent where
  | call
  | resolve
deriving DecidableEq

/-- State of the `ExampleService` instance plus the bookkeeping needed to
observe the temporal claim: `examples` and `pendingValue` model the
`examples` and `loadPromise` fields (the pending promise is represented by
the value it will settle with), `loads` counts underlying fetches started,
`waiting` counts callers blocked on the in-flight promise, and `observed`
collects the results delivered to callers, in delivery order. -/
structure LoaderState where
  examples : Option ExamplesData
  pendingValue : Option ExamplesData
  loads : ℕ
  waiting : ℕ
  observed : List ExamplesData
deriving DecidableEq

/-- Initial state of the module-level `exampleService` singleton
(exampleService.ts lines 8-9 and 62). -/
def loaderInit : LoaderState := ⟨none, none, 0, 0, []⟩

/-- One step of the loader model.  `outcomes k` is the fetch outcome of the
`k`-th underlying load.  A `call` follows `loadExamples` lines 11-41: a
cached `examples` is returned at once; an in-flight `loadPromise` is joined;
otherwise a new load starts.  A `resolve` settles the in-flight promise:
`this.examples` is set (lines 27-29 / 33-38) and every joined caller receives
the settled value. -/
def loadStep (outcomes : ℕ → Except String ExamplesData) (s : LoaderState) :
    LoadEvent → LoaderState
  | LoadEvent.call =>
    match s.examples with
    | some e => { s with observed := s.observed ++ [e] }
    | none =>
      match s.pendingValue with
      | some _ => { s with waiting := s.waiting + 1 }
      | none =>
        { s with pendingValue := some (outcomeValue (outcomes s.loads)),
                 loads := s.loads + 1,
                 waiting := s.waiting + 1 }
  | LoadEvent.resolve =>
    match s.pendingValue with
    | some v =>
      { s with examples := some v,
               pendingValue := none,
               waiting := 0,
               observed := s.observed ++ List.replicate s.waiting v }
    | none => s

/-- Run the loader model over a sequence of interleaved events. -/
def runLoader (outcomes : ℕ → Except String ExamplesData)
    (trace : List LoadEvent) : LoaderState :=
  trace.foldl (loadStep outcomes) loaderInit

/-! ## Session validation before scoring (src/unnamed/part_002)

`analyzeExercises` of the sessionStorage-backed Score page (lines 35-48):
takes `allExerciseResults.slice(-3)` and rejects with the validation message
before any score is produced unless exactly three attempts are present and
the kinds reading, description, question are all covered. -/

/-- The mock score payload the page produces once validation passes
(part_002 lines 52-80), reduced to its numeric fields. -/
structure ScoreData where
  overallScore : ℤ
  vocabulary : ℤ
  rhythm : ℤ
  clarity : ℤ
deriving DecidableEq

/-- The concrete scores assembled at part_002 lines 52-56. -/
def mockScoreData : ScoreData := ⟨75, 80, 65, 80⟩

/-- JavaScript `array.slice(-3)`: the last three elements (the whole array
when it has fewer than three). -/
def lastThree {α : Type} (l : List α) : List α := l.drop (l.length - 3)

/-- The validation message of part_002 line 45. -/
def invalidSessionMsg : String := "Datos de prueba incompletos o incorrectos"

/-- Model of `analyzeExercises` (part_002 lines 35-84) on the list of attempt
type tags read from sessionStorage: slice the last three, reject with the
validation error when there are not exactly three or the three do not cover
reading, description and question, otherwise produce the score data. -/
def analyzeExercises (allExerciseResults : List String) : Except String ScoreData :=
  let exerciseResults := lastThree allExerciseResults
  let hasReading := exerciseResults.any (fun t => t = "reading")
  let hasDescription := exerciseResults.any (fun t => t = "description")
  let hasQuestion := exerciseResults.any (fun t => t = "question")
  if exerciseResults.length ≠ 3 ∨ ¬hasReading ∨ ¬hasDescription ∨ ¬hasQuestion then
    Except.error invalidSessionMsg
  else
    Except.ok mockScoreData

/-! ## Speech-rate indicator position (src/frontend/src/components/EnhanceSpeech.tsx)

`SpeechRateIndicator.getPosition` (lines 553-569 of the concatenated file):

  const MIN_WPM = 30; const MAX_WPM = 300;
  const IDEAL_MIN = 120; const IDEAL_MAX = 160;
  const IDEAL_CENTER = (IDEAL_MIN + IDEAL_MAX) / 2; // 140
  const getPosition = () => {
    const wpm = wordsPerMinute > 0 ? wordsPerMinute : IDEAL_CENTER;
    if (wpm <= MIN_WPM) return 0;
    if (wpm >= MAX_WPM) return 100;
    return ((wpm - MIN_WPM) / (MAX_WPM - MIN_WPM)) * 100;
  };
-/

def MIN_WPM : ℚ := 30

def MAX_WPM : ℚ := 300

def IDEAL_CENTER : ℚ := (120 + 160) / 2

/-- Model of `getPosition`. -/
def getPosition (wordsPerMinute : ℚ) : ℚ :=
  let wpm := if wordsPerMinute > 0 then wordsPerMinute else IDEAL_CENTER
  if wpm ≤ MIN_WPM then 0
  else if wpm ≥ MAX_WPM then 100
  else ((wpm - MIN_WPM) / (MAX_WPM - MIN_WPM)) * 100

/-! ## Filler-word analysis (src/frontend/src/components/EnhanceSpeech.tsx)

`analyzeFillers` (lines 220-239):

  function analyzeFillers(text, fillers) {
    const lower = text.toLowerCase();
    const counts = {}; let total = 0;
    for (const f of fillers) {
      const re = new RegExp('\\b' + escapeRegex(f.toLowerCase()) + '\\b', 'gi');
      const m = lower.match(re);
      const c = m ? m.length : 0;
      if (c > 0) { counts[f] = c; total += c; }
    }
    const top = Object.entries(counts).sort((a, b) => b[1] - a[1]).slice(0, 5);
    return { total, counts, top };
  }

The regex match is modelled by `countWordBounded`: the number of
non-overlapping, left-to-right occurrences of the (lower-cased) filler in
the (lower-cased) text whose two ends sit on `\b` word boundaries.  This is
exact for fillers that contain no regex metacharacters (the intent of
`escapeRegex`, lines 216-218). -/

/-- Equality of `Except` values is decidable componentwise. -/
instance {ε α : Type} [DecidableEq ε] [DecidableEq α] : DecidableEq (Except ε α)
  | Except.ok x, Except.ok y =>
    if h : x = y then isTrue (by rw [h]) else isFalse (fun hc => by cases hc; exact h rfl)
  | Except.ok _, Except.error _ => isFalse (fun hc => by cases hc)
  | Except.error _, Except.ok _ => isFalse (fun hc => by cases hc)
  | Except.error e, Except.error f =>
    if h : e = f then isTrue (by rw [h]) else isFalse (fun hc => by cases hc; exact h rfl)

/-- A results payload with no `overall` dimension entry, a `vocabulary`
dimension whose score is 0 and a `clarity` dimension with score 60. -/
def c1Example : ResultsWithMetrics :=
  ⟨"session-1", 0, [⟨"vocabulary", 0, "fb"⟩, ⟨"clarity", 60, "fb"⟩], none⟩

/-- The mock payload hard-coded in Score.tsx lines 140-166 (feedback texts
abbreviated; they are opaque to every computation modelled here). -/
def mockResults : ResultsWithMetrics :=
  ⟨"mock-session-123", 75,
   [⟨"vocabulary", 80, "Practica ampliar tu variedad de palabras."⟩,
    ⟨"clarity", 70, "Tu claridad mejora evitando muletillas."⟩,
    ⟨"rhythm", 75, "Mantén un ritmo constante."⟩],
   some [("precision_transcription", ⟨some (9/10), some 82⟩),
         ("words_per_minute", ⟨some 130, some 78⟩),
         ("filler_word_per_minute", ⟨some (3/2), some 88⟩),
         ("lexical_variability", ⟨some (11/20), some 80⟩)]⟩

/-- A syntactically well-formed payload whose single dimension entry carries
a score of 150, outside [0,100]. -/
def c8Bad : ResultsWithMetrics :=
  ⟨"session-8", 75, [⟨"clarity", 150, "fb"⟩], none⟩

/-- A concrete examples file content, used as a fetch outcome. -/
def examplesW : ExamplesData :=
  ⟨["El veloz zorro marrón salta sobre el perro perezoso."],
   ["Describe la imagen."], ["¿Cuáles son tus objetivos?"]⟩

/-- A payload whose metrics record holds a single integral entry, used as a
test input. -/
def c8Ok : ResultsWithMetrics :=
  ⟨"session-ok", 75, [⟨"vocabulary", 80, "fb"⟩],
   some [("words_per_minute", ⟨some 130, some 78⟩)]⟩

/-- The part of claim C8 expressible over the interface type: every
dimension entry's score lies in [0,100]. -/
def dimScoresInRange (r : ResultsWithMetrics) : Prop :=
  ∀ d ∈ r.dimensions, 0 ≤ d.score ∧ d.score ≤ 100

instance (r : ResultsWithMetrics) : Decidable (dimScoresInRange r) := by
  unfold dimScoresInRange; infer_instance

/-! ## Tokenizer lemmas -/

lemma splitWsAux_all_ws (cs : List Char) (h : ∀ c ∈ cs, isWs c = true) :
    (splitWsAux cs []).filter (fun w => 0 < w.length) = [] := by
  induction cs with
  | nil => simp [splitWsAux]
  | cons c cs ih =>
    have hc : isWs c = true := h c (List.mem_cons_self c cs)
    have hcs : ∀ x ∈ cs, isWs x = true := fun x hx => h x (List.mem_cons_of_mem c hx)
    simp [splitWsAux, hc, ih hcs]

lemma trimChars_all_ws (cs : List Char) (h : ∀ c ∈ cs, isWs c = true) :
    trimChars cs = [] := by
  unfold trimChars
  have h1 : cs.dropWhile isWs = [] := List.dropWhile_eq_nil_iff.mpr h
  simp [h1]

lemma jsTokens_all_ws (s : String) (h : ∀ c ∈ s.toList, isWs c = true) :
    jsTokens s = [] := by
  unfold jsTokens wsTokens
  rw [trimChars_all_ws s.toList h]
  simp [splitWsAux]

lemma tokenCount_pos_trim_ne (s : String) (h : 0 < tokenCount s) :
    (trimChars s.toList).length ≠ 0 := by
  intro hlen
  have hnil : trimChars s.toList = [] := List.length_eq_zero.mp hlen
  unfold tokenCount jsTokens wsTokens at h
  rw [hnil] at h
  simp [splitWsAux] at h

/-! ## Claim C4 -/

/-- Claim C4: for every transcript and every chunk duration less than or
equal to zero, the words-per-minute metric is not computed: `transcribeAudio`
produces no value at all (neither zero nor infinity), and the division by
the duration is never reached. -/
theorem claim_C4 (transcript : String) (d : ℚ) (hd : d ≤ 0) :
    wpmUpdate transcript d = none := by
  simp only [wpmUpdate]
  by_cases ht : (trimChars transcript.toList).length = 0
  · rw [if_pos ht]
  · rw [if_neg ht, if_neg]
    rintro ⟨hpos, -⟩
    exact absurd hd (not_le.mpr hpos)

/-- Witness for C4: a two-word transcript with duration 0 produces no
words-per-minute value. -/
theorem claim_C4_witness : ((0:ℚ) ≤ 0) ∧ wpmUpdate "hola mundo" 0 = none :=
  ⟨le_refl 0, claim_C4 "hola mundo" 0 (le_refl 0)⟩

/-! ## Claim C9 -/

/-- Claim C9: an empty or whitespace-only transcript tokenizes to the empty
token sequence (totally, with no error), and consequently no word tokens are
counted: `transcribeAudio` produces no words-per-minute value for it, for
any duration. -/
theorem claim_C9 (s : String) (h : ∀ c ∈ s.toList, isWs c = true) :
    jsTokens s = [] ∧ ∀ d : ℚ, wpmUpdate s d = none := by
  refine ⟨jsTokens_all_ws s h, fun d => ?_⟩
  simp only [wpmUpdate]
  rw [trimChars_all_ws s.toList h]
  simp

/-- Witness for C9 at the whitespace-only transcript `" "`. -/
theorem claim_C9_witness :
    (∀ c ∈ (" " : String).toList, isWs c = true) ∧
    jsTokens " " = [] ∧ wpmUpdate " " 1 = none :=
  ⟨by decide, (claim_C9 " " (by decide)).1, (claim_C9 " " (by decide)).2 1⟩

/-! ## Claim C5 -/

/-- Claim C5 counterexample: transcript `"a b c"` (three tokens) over a
chunk of two minutes (120 seconds).  The claimed value is
`token_count / (seconds/60) = 3/2`, but the code reports
`Math.round(3/2) = 2`: the reported value is rounded, so it does not equal
the claimed quotient. -/
theorem claim_C5_counterexample :
    wpmUpdate "a b c" 2 = some (2, 3) ∧
    (tokenCount "a b c" : ℚ) / ((120 : ℚ) / 60) = 3/2 ∧ ((2:ℚ) ≠ 3/2) := by
  refine ⟨?_, ?_, by norm_num⟩
  · simp only [wpmUpdate]
    have ht : trimChars "a b c".toList = ['a', ' ', 'b', ' ', 'c'] := by decide
    rw [ht]
    have hw : wsTokens ['a', ' ', 'b', ' ', 'c'] = [['a'], ['b'], ['c']] := by decide
    rw [hw]
    have hc : ¬(List.length ['a', ' ', 'b', ' ', 'c'] = 0) := by decide
    rw [if_neg hc, if_pos (by norm_num)]
    norm_num [jsRound]
  · have h3 : tokenCount "a b c" = 3 := by decide
    rw [h3]; norm_num

/-- Claim C5 (amended): for every transcript with at least one token and
every strictly positive duration, the reported words-per-minute value is
`Math.round` of `token_count(transcript) / (audio_duration_seconds / 60)` —
the quotient rounded to the nearest integer, which is what the original
claim omits. -/
theorem claim_C5 (transcript : String) (secs : ℚ) (hs : 0 < secs)
    (ht : 0 < tokenCount transcript) :
    (wpmUpdate transcript (secs / 60)).map Prod.fst =
      some (jsRound ((tokenCount transcript : ℚ) * 60 / secs)) := by
  have htrim := tokenCount_pos_trim_ne transcript ht
  simp only [wpmUpdate]
  rw [if_neg htrim]
  have hcount : (wsTokens (trimChars transcript.toList)).length = tokenCount transcript := rfl
  rw [hcount, if_pos ⟨by positivity, ht⟩]
  rw [div_div_eq_mul_div]
  rfl

/-- Witness for C5: transcript `"el veloz zorro"` over 90 seconds reports
`Math.round(3 * 60 / 90) = 2` words per minute. -/
theorem claim_C5_witness :
    ((0:ℚ) < 90) ∧ (0 < tokenCount "el veloz zorro") ∧
    (wpmUpdate "el veloz zorro" ((90 : ℚ) / 60)).map Prod.fst =
      some (jsRound ((tokenCount "el veloz zorro" : ℚ) * 60 / 90)) :=
  ⟨by norm_num, by decide, claim_C5 "el veloz zorro" 90 (by norm_num) (by decide)⟩

/-! ## Claim C6 -/

/-- Claim C6: a session with fewer than three stored attempts, or with three
attempts that do not cover the kinds reading, description and question, is
rejected by `analyzeExercises` with the validation error before any score is
produced. -/
theorem claim_C6 (allResults : List String)
    (h : allResults.length < 3 ∨
         (allResults.length = 3 ∧
          ¬(("reading" ∈ allResults) ∧ ("description" ∈ allResults) ∧
            ("question" ∈ allResults)))) :
    analyzeExercises allResults = Except.error invalidSessionMsg := by
  have hle : allResults.length ≤ 3 := by
    rcases h with h | ⟨h, -⟩
    · exact le_of_lt h
    · exact le_of_eq h
  have hlast : lastThree allResults = allResults := by
    unfold lastThree
    rw [Nat.sub_eq_zero_of_le hle, List.drop_zero]
  simp only [analyzeExercises, hlast]
  rw [if_pos]
  rcases h with h | ⟨hlen, hnc⟩
  · exact Or.inl (Nat.ne_of_lt h)
  · right
    have hone : ¬("reading" ∈ allResults) ∨ ¬("description" ∈ allResults) ∨
        ¬("question" ∈ allResults) := by tauto
    rcases hone with hr | hd | hq
    · left; simpa using hr
    · right; left; simpa using hd
    · right; right; simpa using hq

/-- Witness for C6: only two attempts are rejected with the validation
message. -/
theorem claim_C6_witness :
    (["reading", "description"] : List String).length < 3 ∧
    analyzeExercises ["reading", "description"] = Except.error invalidSessionMsg :=
  ⟨by decide, claim_C6 ["reading", "description"] (Or.inl (by decide))⟩

/-! ## Claim C7 -/

/-- Claim C7 counterexample: a raw words-per-minute value of 0 is at or
below the lower outer bound (30), yet `getPosition` does not map it to 0:
the `wordsPerMinute > 0 ? ... : IDEAL_CENTER` fallback sends it to the
ideal-center position `1100/27` (about 40.7). -/
theorem claim_C7_counterexample :
    (0:ℚ) ≤ MIN_WPM ∧ getPosition 0 = 1100/27 ∧ (1100/27 : ℚ) ≠ 0 := by
  refine ⟨by norm_num [MIN_WPM], ?_, by norm_num⟩
  norm_num [getPosition, IDEAL_CENTER, MIN_WPM, MAX_WPM]

/-- Claim C7 (amended): for every strictly positive raw words-per-minute
value, `getPosition` maps values at or below 30 to exactly 0, values at or
above 300 to exactly 100, and values strictly in between linearly; and for
every raw value whatsoever (including non-positive ones, which are redirected
to the ideal center) the result stays within [0,100]. -/
theorem claim_C7 (w : ℚ) (hw : 0 < w) :
    (w ≤ MIN_WPM → getPosition w = 0) ∧
    (MAX_WPM ≤ w → getPosition w = 100) ∧
    (MIN_WPM < w → w < MAX_WPM →
      getPosition w = (w - MIN_WPM) / (MAX_WPM - MIN_WPM) * 100) ∧
    (∀ v : ℚ, 0 ≤ getPosition v ∧ getPosition v ≤ 100) := by
  refine ⟨?_, ?_, ?_, ?_⟩
  · intro h
    simp only [getPosition, if_pos hw]
    rw [if_pos h]
  · intro h
    have h30 : ¬(w ≤ MIN_WPM) := by
      simp only [MIN_WPM, MAX_WPM] at *
      push_neg
      linarith
    simp only [getPosition, if_pos hw]
    rw [if_neg h30, if_pos (le_trans h (le_refl w))]
  · intro h1 h2
    simp only [getPosition, if_pos hw]
    rw [if_neg (not_le.mpr h1), if_neg (not_le.mpr h2)]
  · intro v
    simp only [getPosition]
    have hic : (0:ℚ) < IDEAL_CENTER := by norm_num [IDEAL_CENTER]
    split_ifs with hv h1 h2 h1 h2
    · norm_num
    · norm_num
    · constructor
      · apply mul_nonneg
        · apply div_nonneg
          · simp only [MIN_WPM] at h1 ⊢; linarith [not_le.mp h1]
          · norm_num [MIN_WPM, MAX_WPM]
        · norm_num
      · have hb : v < MAX_WPM := not_le.mp h2
        simp only [MIN_WPM, MAX_WPM] at h1 hb ⊢
        rw [div_mul_eq_mul_div, div_le_iff₀ (by norm_num : (0:ℚ) < 300 - 30)]
        linarith
    · norm_num
    · norm_num
    · constructor
      · apply mul_nonneg
        · apply div_nonneg
          · simp only [MIN_WPM, IDEAL_CENTER] at h1 ⊢; linarith [not_le.mp h1]
          · norm_num [MIN_WPM, MAX_WPM]
        · norm_num
      · have hb : IDEAL_CENTER < MAX_WPM := not_le.mp h2
        simp only [MIN_WPM, MAX_WPM, IDEAL_CENTER] at hb ⊢
        rw [div_mul_eq_mul_div, div_le_iff₀ (by norm_num : (0:ℚ) < 300 - 30)]
        norm_num

/-- Witness for C7 at the raw value 45: strictly positive, above the lower
bound, and placed at the linear position `(45-30)/270*100`. -/
theorem claim_C7_witness :
    ((0:ℚ) < 45) ∧ (MIN_WPM < (45:ℚ)) ∧ ((45:ℚ) < MAX_WPM) ∧
    getPosition 45 = ((45:ℚ) - MIN_WPM) / (MAX_WPM - MIN_WPM) * 100 :=
  ⟨by norm_num, by norm_num [MIN_WPM], by norm_num [MAX_WPM],
   (claim_C7 45 (by norm_num)).2.2.1 (by norm_num [MIN_WPM]) (by norm_num [MAX_WPM])⟩

/-! ## Loader invariant and claims C2, C3 -/

/-- Invariant of the loader model for a fixed first-load value `w0`: at most
one load has started; no load has started while both fields are unset; and
every cached, pending or delivered value is `w0`. -/
def loaderInvariant (w0 : ExamplesData) (s : LoaderState) : Prop :=
  s.loads ≤ 1 ∧
  (s.examples = none → s.pendingValue = none → s.loads = 0) ∧
  (∀ v, s.examples = some v → v = w0) ∧
  (∀ v, s.pendingValue = some v → v = w0) ∧
  (∀ r ∈ s.observed, r = w0)

lemma loaderInvariant_init (w0 : ExamplesData) : loaderInvariant w0 loaderInit := by
  refine ⟨by simp [loaderInit], fun _ _ => rfl, ?_, ?_, ?_⟩ <;> simp [loaderInit]

lemma loaderInvariant_step (outcomes : ℕ → Except String ExamplesData)
    (s : LoaderState) (e : LoadEvent)
    (h : loaderInvariant (outcomeValue (outcomes 0)) s) :
    loaderInvariant (outcomeValue (outcomes 0)) (loadStep outcomes s e) := by
  obtain ⟨ex, pv, loads, waiting, obs⟩ := s
  unfold loaderInvariant at h ⊢
  dsimp only at h
  obtain ⟨h1, h2, h3, h4, h5⟩ := h
  cases e with
  | call =>
    cases ex with
    | some v =>
      simp only [loadStep]
      refine ⟨h1, by simp, h3, h4, ?_⟩
      intro r hr
      rcases List.mem_append.mp hr with hr | hr
      · exact h5 r hr
      · have hrv : r = v := by simpa using hr
        exact hrv ▸ h3 v rfl
    | none =>
      cases pv with
      | some p =>
        simp only [loadStep]
        exact ⟨h1, by simp, h3, h4, h5⟩
      | none =>
        have hl0 : loads = 0 := h2 rfl rfl
        simp only [loadStep]
        refine ⟨by omega, by simp, h3, ?_, h5⟩
        intro v hv
        simp only [Option.some.injEq] at hv
        rw [← hv, hl0]
  | resolve =>
    cases pv with
    | none =>
      simp only [loadStep]
      exact ⟨h1, fun hex _ => h2 hex rfl, h3, h4, h5⟩
    | some p =>
      have hpw : p = outcomeValue (outcomes 0) := h4 p rfl
      simp only [loadStep]
      refine ⟨h1, by simp, ?_, by simp, ?_⟩
      · intro v hv
        simp only [Option.some.injEq] at hv
        rw [← hv]; exact hpw
      · intro r hr
        rcases List.mem_append.mp hr with hr | hr
        · exact h5 r hr
        · have hrp : r = p := List.eq_of_mem_replicate hr
          rw [hrp]; exact hpw

lemma runLoader_invariant (outcomes : ℕ → Except String ExamplesData)
    (trace : List LoadEvent) :
    loaderInvariant (outcomeValue (outcomes 0)) (runLoader outcomes trace) := by
  unfold runLoader
  generalize hinit : loaderInit = s0
  have h0 : loaderInvariant (outcomeValue (outcomes 0)) s0 :=
    hinit ▸ loaderInvariant_init _
  clear hinit
  induction trace generalizing s0 with
  | nil => exact h0
  | cons e es ih => exact ih _ (loaderInvariant_step outcomes s0 e h0)

/-- Claim C2: over every interleaving of calls to `loadExamples` and
promise settlements, at most one underlying load is performed, and every
result a caller observes — whether the caller hit the cache, started the
load, or joined the in-flight promise — is the settled value of the single
(first) load. -/
theorem claim_C2 (outcomes : ℕ → Except String ExamplesData)
    (trace : List LoadEvent) :
    (runLoader outcomes trace).loads ≤ 1 ∧
    ∀ r ∈ (runLoader outcomes trace).observed, r = outcomeValue (outcomes 0) := by
  have h := runLoader_invariant outcomes trace
  exact ⟨h.1, h.2.2.2.2⟩

/-- Witness for C2: two calls race before the load settles, a third arrives
after; one load happens and all three observe the fetched data. -/
theorem claim_C2_witness :
    (runLoader (fun _ => Except.ok examplesW)
        [LoadEvent.call, LoadEvent.call, LoadEvent.resolve, LoadEvent.call]).loads ≤ 1 ∧
    examplesW = outcomeValue ((fun _ => Except.ok examplesW) 0) :=
  ⟨(claim_C2 (fun _ => Except.ok examplesW)
      [LoadEvent.call, LoadEvent.call, LoadEvent.resolve, LoadEvent.call]).1,
   (claim_C2 (fun _ => Except.ok examplesW)
      [LoadEvent.call, LoadEvent.call, LoadEvent.resolve, LoadEvent.call]).2
     examplesW (by decide)⟩

/-- Claim C3 counterexample: when the underlying fetch fails, `loadExamples`
does not raise a resource-unavailable error to its caller: the `catch`
handler (exampleService.ts lines 31-39) resolves the promise successfully
with the empty substitute, so the caller receives `.ok emptyExamples`. -/
theorem claim_C3_counterexample :
    loadExamplesSettled (Except.error "network error") = Except.ok emptyExamples ∧
    (loadExamplesSettled (Except.error "network error")).isOk = true :=
  ⟨rfl, rfl⟩

/-- Claim C3 (amended): if the load fails at first use, the loader does not
raise: it catches the failure and resolves with — and caches — the empty
substitute `{read: [], description: [], question: []}`, so every caller (the
one that triggered the load, those that joined it, and all later ones)
observes that substitute; callers already holding the cached value of a
previous successful load are unaffected, since the failure handler only runs
inside the single first load. -/
theorem claim_C3 (e : String) (trace : List LoadEvent) :
    loadExamplesSettled (Except.error e) = Except.ok emptyExamples ∧
    ∀ r ∈ (runLoader (fun _ => Except.error e) trace).observed, r = emptyExamples := by
  refine ⟨rfl, fun r hr => ?_⟩
  have h := (runLoader_invariant (fun _ => Except.error e) trace).2.2.2.2 r hr
  simpa [outcomeValue] using h

/-- Witness for C3: a failing fetch with one pre-settlement call and one
post-settlement call; both observe the empty substitute. -/
theorem claim_C3_witness :
    loadExamplesSettled (Except.error "boom") = Except.ok emptyExamples ∧
    emptyExamples = emptyExamples ∧
    (runLoader (fun _ => Except.error "boom")
        [LoadEvent.call, LoadEvent.resolve, LoadEvent.call]).observed =
      [emptyExamples, emptyExamples] :=
  ⟨(claim_C3 "boom" [LoadEvent.call, LoadEvent.resolve, LoadEvent.call]).1,
   (claim_C3 "boom" [LoadEvent.call, LoadEvent.resolve, LoadEvent.call]).2
     emptyExamples (by decide),
   by decide⟩

/-! ## Claim C1 -/

lemma findValue_eq_firstDimValue (dims : List DimensionResponse) (aliases : List String) :
    findValue (normalizeDims dims) aliases = (firstDimValue dims aliases).getD 0 := by
  unfold findValue firstDimValue normalizeDims
  rw [List.find?_map]
  have hp : ((fun d : NormDim => nameMatches d.name aliases) ∘
      (fun d : DimensionResponse =>
        (⟨lowerStr d.name, jsRound d.score, d.feedback⟩ : NormDim))) =
      fun d : DimensionResponse => nameMatches (lowerStr d.name) aliases := rfl
  rw [hp]
  rcases hfind : dims.find? (fun d => nameMatches (lowerStr d.name) aliases) with _ | d
  · simp [hfind]
  · simp [hfind]

lemma filter_getD_eq (l : List (Option ℤ)) :
    (l.map (fun o => o.getD 0)).filter (fun v => 0 < v) =
    (l.filterMap id).filter (fun v => 0 < v) := by
  induction l with
  | nil => rfl
  | cons o l ih =>
    cases o with
    | none => simpa using ih
    | some v => simp [List.filter_cons, ih]

/-- Claim C1 counterexample: a payload with no `overall` entry, a present
`vocabulary` dimension with score 0 and a present `clarity` dimension with
score 60.  The claimed overall — the unweighted mean of the present
dimension scores — is 30, but the page computes 60: the present score 0 is
dropped from numerator and denominator by the `v > 0` filter. -/
theorem claim_C1_counterexample :
    (∀ d ∈ c1Example.dimensions, nameMatches (lowerStr d.name) overallAliases = false) ∧
    updateMetricsOverall c1Example = 60 ∧
    claimMeanPresent c1Example = some 30 ∧ ((60 : ℚ) ≠ 30) := by
  refine ⟨by decide, ?_, ?_, by norm_num⟩
  · have hnorm : normalizeDims c1Example.dimensions =
        [⟨"vocabulary", 0, "fb"⟩, ⟨"clarity", 60, "fb"⟩] := by
      unfold normalizeDims c1Example
      have hv : lowerStr "vocabulary" = "vocabulary" := by decide
      have hc : lowerStr "clarity" = "clarity" := by decide
      simp only [List.map_cons, List.map_nil, hv, hc]
      norm_num [jsRound, NormDim.mk.injEq]
    have hfv : findValue [⟨"vocabulary", 0, "fb"⟩, ⟨"clarity", 60, "fb"⟩]
        vocabularyAliases = 0 := by decide
    have hfc : findValue [⟨"vocabulary", 0, "fb"⟩, ⟨"clarity", 60, "fb"⟩]
        clarityAliases = 60 := by decide
    have hfr : findValue [⟨"vocabulary", 0, "fb"⟩, ⟨"clarity", 60, "fb"⟩]
        rhythmAliases = 0 := by decide
    have hfo : findValue [⟨"vocabulary", 0, "fb"⟩, ⟨"clarity", 60, "fb"⟩]
        overallAliases = 0 := by decide
    simp only [updateMetricsOverall, hnorm, hfv, hfc, hfr, hfo]
    have hfil : ([0, 60, 0] : List ℤ).filter (fun v => 0 < v) = [60] := by decide
    rw [if_neg (by norm_num), hfil]
    rw [if_pos (by norm_num)]
    norm_num [jsRound]
  · have hfilter : c1Example.dimensions.filter isNamedDimension = c1Example.dimensions := by
      decide
    simp only [claimMeanPresent, hfilter]
    rw [if_neg (by decide)]
    simp only [c1Example, List.map_cons, List.map_nil]
    norm_num

/-- Claim C1 (amended): for every results payload whose dimensions include
no `overall`/`general` entry, the overall score is the rounded unweighted
mean of the strictly positive rounded scores among the present vocabulary,
clarity and rhythm dimensions: a dimension that is absent — or whose rounded
score is zero or negative — contributes to neither the numerator nor the
denominator, and the overall is 0 when no strictly positive dimension score
remains. -/
theorem claim_C1 (results : ResultsWithMetrics)
    (h : ∀ d ∈ results.dimensions, nameMatches (lowerStr d.name) overallAliases = false) :
    updateMetricsOverall results = amendedOverall results := by
  have hov : findValue (normalizeDims results.dimensions) overallAliases = 0 := by
    unfold findValue
    have hnone : (normalizeDims results.dimensions).find?
        (fun d => nameMatches d.name overallAliases) = none := by
      apply List.find?_eq_none.mpr
      intro x hx
      unfold normalizeDims at hx
      rcases List.mem_map.mp hx with ⟨d, hd, rfl⟩
      simpa using h d hd
    rw [hnone]
  simp only [updateMetricsOverall, amendedOverall, hov,
    findValue_eq_firstDimValue]
  rw [if_neg (by norm_num)]
  have hlist : [(firstDimValue results.dimensions vocabularyAliases).getD 0,
      (firstDimValue results.dimensions clarityAliases).getD 0,
      (firstDimValue results.dimensions rhythmAliases).getD 0] =
      ([firstDimValue results.dimensions vocabularyAliases,
        firstDimValue results.dimensions clarityAliases,
        firstDimValue results.dimensions rhythmAliases].map (fun o => o.getD 0)) := rfl
  rw [hlist, filter_getD_eq]
  by_cases hnil : ([firstDimValue results.dimensions vocabularyAliases,
      firstDimValue results.dimensions clarityAliases,
      firstDimValue results.dimensions rhythmAliases].filterMap id).filter
      (fun v => 0 < v) = []
  · rw [hnil]
    simp
  · have hlen : (([firstDimValue results.dimensions vocabularyAliases,
        firstDimValue results.dimensions clarityAliases,
        firstDimValue results.dimensions rhythmAliases].filterMap id).filter
        (fun v => 0 < v)).length ≠ 0 :=
      fun hz => hnil (List.length_eq_zero.mp hz)
    rw [if_pos hlen, if_neg hnil]

/-- Witness for C1 at the Score page's own mock payload (vocabulary 80,
clarity 70, rhythm 75, no overall entry). -/
theorem claim_C1_witness :
    (∀ d ∈ mockResults.dimensions,
      nameMatches (lowerStr d.name) overallAliases = false) ∧
    updateMetricsOverall mockResults = amendedOverall mockResults :=
  ⟨by decide, claim_C1 mockResults (by decide)⟩

/-! ## Claim C8 -/

/-- Claim C8 counterexample: the interface neither constrains a dimension's
score to [0,100] nor attaches a metrics map to the dimension entry.  A
well-typed payload whose single dimension carries score 150 (and no metrics
record at all) is consumed by the Score page without rejection or clamping:
the derived overall is 150. -/
theorem claim_C8_counterexample :
    ¬ dimScoresInRange c8Bad ∧ updateMetricsOverall c8Bad = 150 := by
  constructor
  · intro hc
    have h150 := (hc ⟨"clarity", 150, "fb"⟩ (by simp [c8Bad])).2
    norm_num at h150
  · have hnorm : normalizeDims c8Bad.dimensions = [⟨"clarity", 150, "fb"⟩] := by
      unfold normalizeDims c8Bad
      have hc : lowerStr "clarity" = "clarity" := by decide
      simp only [List.map_cons, List.map_nil, hc]
      norm_num [jsRound, NormDim.mk.injEq]
    have hfv : findValue [⟨"clarity", 150, "fb"⟩] vocabularyAliases = 0 := by decide
    have hfc : findValue [⟨"clarity", 150, "fb"⟩] clarityAliases = 150 := by decide
    have hfr : findValue [⟨"clarity", 150, "fb"⟩] rhythmAliases = 0 := by decide
    have hfo : findValue [⟨"clarity", 150, "fb"⟩] overallAliases = 0 := by decide
    simp only [updateMetricsOverall, hnorm, hfv, hfc, hfr, hfo]
    have hfil : ([0, 150, 0] : List ℤ).filter (fun v => 0 < v) = [150] := by decide
    rw [if_neg (by norm_num), hfil, if_pos (by norm_num)]
    norm_num [jsRound]

/-- Claim C8 (amended): a dimension entry of the session result carries a
name, a numeric score and opaque feedback text, but the interface does not
bound the score to [0,100], and the raw/score metrics map is not attached to
the dimension entry: it is an optional session-level map from metric name to
optional raw and score fields.  Every metric detail the Score page derives
comes from that session-level map at one of the four known metric keys, with
the present score rounded and a missing score field treated as 0. -/
theorem claim_C8 (r : ResultsWithMetrics) (p : String × ℤ)
    (hp : p ∈ metricDetails r) :
    p.1 ∈ metricKeys ∧
    ∃ ms, lookupMetric (r.metrics.getD []) p.1 = some ms ∧
      p.2 = (match ms.score with | some q => jsRound q | none => 0) := by
  unfold metricDetails at hp
  rcases List.mem_filterMap.mp hp with ⟨key, hkey, hmap⟩
  rcases Option.map_eq_some'.mp hmap with ⟨ms, hms, hpe⟩
  subst hpe
  exact ⟨hkey, ms, hms, rfl⟩

/-- Witness for C8: a payload carrying one session-level metric entry
(`words_per_minute`, raw 130, score 78) yields the detail `(words_per_minute,
78)`, whose key the theorem places among the four known metric keys. -/
theorem claim_C8_witness :
    ("words_per_minute", (78:ℤ)) ∈ metricDetails c8Ok ∧
    "words_per_minute" ∈ metricKeys := by
  have h1 : lookupMetric [("words_per_minute", ⟨some 130, some 78⟩)]
      "precision_transcription" = none := by decide
  have h2 : lookupMetric [("words_per_minute", ⟨some 130, some 78⟩)]
      "words_per_minute" = some ⟨some 130, some 78⟩ := by decide
  have h3 : lookupMetric [("words_per_minute", ⟨some 130, some 78⟩)]
      "filler_word_per_minute" = none := by decide
  have h4 : lookupMetric [("words_per_minute", ⟨some 130, some 78⟩)]
      "lexical_variability" = none := by decide
  have heval : metricDetails c8Ok = [("words_per_minute", jsRound 78)] := by
    simp only [metricDetails, c8Ok, metricKeys, Option.getD_some,
      List.filterMap_cons, List.filterMap_nil, h1, h2, h3, h4, Option.map_some',
      Option.map_none']
  have h78 : jsRound 78 = 78 := by norm_num [jsRound]
  have hmem : ("words_per_minute", (78:ℤ)) ∈ metricDetails c8Ok := by
    rw [heval, h78]
    exact List.mem_singleton.mpr rfl
  exact ⟨hmem, (claim_C8 c8Ok ("words_per_minute", (78:ℤ)) hmem).1⟩

/-! ## Claim C10 -/

